import Mathlib

/-!
Verification development for the simulation-run database and
derivative-orchestration engine of `simulation/model/eval.py`.

The shallow embedding models:
  * a run chain (the ordered run directories of one spinup directory) as a
    `List Run`, where position = run index and each `Run` records the per-run
    achieved years (`job.last_year`) and the achieved tolerance
    (`job.last_tolerance`);
  * `Model_Database.is_run_matching_options`, `real_years`, `real_tolerance`,
    `matching_run_dir`, `make_new_run_dir`;
  * the factor-id computation and the partial-derivative fan-out decision of
    `Model_With_F_And_DF._df.start_partial_derivative_run`;
  * `Model_With_F._merge_data_sets` / `_split_data_sets`;
  * the zero-tracer short-circuits of `_trajectory_with_load_function` and
    `_df`.

External collaborators (the batch system, the on-disk job metadata, the
finite-difference utility) appear as oracle parameters; exceptions raised by
the Python code are modelled with `Except`.  Numeric values (years,
tolerances, parameters) are modelled as rationals.
-/

set_option autoImplicit false

namespace SimulationModel

/-- Decidable equality for `Except`, so that concrete evaluations of the
embedded fallible operations can be checked by `decide`. -/
instance {ε α : Type} [DecidableEq ε] [DecidableEq α] : DecidableEq (Except ε α) := by
  intro a b
  cases a <;> cases b
  case error.error e f => exact decidable_of_iff (e = f) (by simp)
  case ok.ok x y => exact decidable_of_iff (x = y) (by simp)
  all_goals exact isFalse (by simp)

/-- One finished run of a chain: the per-run years the job integrated
(`job.last_year`) and the tolerance it achieved (`job.last_tolerance`). -/
structure Run where
  years : ℚ
  tolerance : ℚ
deriving DecidableEq

/-- Spinup options as used by `Model_Database`: requested years, requested
tolerance, the combination keyword (a free string in the Python code, only
`"and"` and `"or"` are accepted) and the match type. -/
structure SpinupOptions where
  years : ℚ
  tolerance : ℚ
  combination : String
  match_type : String
deriving DecidableEq

/-- Errors surfaced by the embedded operations.  `invalidCombination` is the
`ValueError('Combination "..." unknown.')` of `is_run_matching_options`;
`assertionFailed` is the `assert combination == 'and'` in `matching_run_dir`;
`unsupportedTracer` is the `ValueError` of `check_tracers`; `outOfFuel` is a
model artefact of the fuel-indexed recursion of `matching_run_dir` and is
unreachable for any fuel bound of at least one, because the recursive calls
always carry combination `"or"` and never recurse further. -/
inductive MatchError where
  | invalidCombination (keyword : String)
  | assertionFailed
  | unsupportedTracer
  | outOfFuel
deriving DecidableEq

/-- Database-level constants of `Model_Database.__init__`:
`MODEL_SPINUP_MAX_YEARS` (the cap), `MODEL_START_FROM_CLOSEST_PARAMETER_SET`,
and the default `match_type` of a `SpinupOptions` built without one.
The default match type is modelled from the spec: `simulation.model.options`
is not part of the sources, the spec only fixes
`match_type ∈ {exact, equal_or_nearest_better}`. -/
structure Config where
  cap : ℚ
  startFromClosest : Bool
  defaultMatchType : String
deriving DecidableEq

/-- Translation of the `real_years` loop of `Model_Database.real_years` with
`include_previous_runs=True`: starting at run index `i`, add `job.last_year`
of the run and follow `previous_run_dir` (index minus one) down to index 0.
A missing run directory is modelled by the default run `⟨0, 0⟩`. -/
def real_years (chain : List Run) : Nat → ℚ
  | 0 => (chain.getD 0 ⟨0, 0⟩).years
  | i + 1 => (chain.getD (i + 1) ⟨0, 0⟩).years + real_years chain i

/-- Translation of `Model_Database.real_years` with
`include_previous_runs=False`: only the run's own years. -/
def real_years_single (chain : List Run) (i : Nat) : ℚ :=
  (chain.getD i ⟨0, 0⟩).years

/-- Translation of `Model_Database.real_tolerance`: the run's own
`job.last_tolerance`. -/
def real_tolerance (chain : List Run) (i : Nat) : ℚ :=
  (chain.getD i ⟨0, 0⟩).tolerance

/-- Core of `Model_Database.is_run_matching_options` once `run_years` and
`run_tolerance` have been read from the job metadata.  Returns the matching
flag together with the flag of the `warnings.warn` call in the `"and"`
branch; an unknown combination keyword is the `ValueError`. -/
def is_matching_core (cap run_years run_tolerance : ℚ) (opts : SpinupOptions) :
    Except MatchError (Bool × Bool) :=
  if opts.combination = "and" then
    let m : Bool :=
      if (opts.years ≤ run_years ∧ run_tolerance ≤ opts.tolerance) ∨ cap ≤ run_years then
        true
      else false
    .ok (m, m && (if opts.tolerance < run_tolerance then true else false))
  else if opts.combination = "or" then
    .ok ((if opts.years ≤ run_years ∨ run_tolerance ≤ opts.tolerance then true else false),
      false)
  else
    .error (.invalidCombination opts.combination)

/-- Translation of `Model_Database.is_run_matching_options`: a `none` run
directory is not matching (and the combination keyword is never inspected);
otherwise the achieved years (accumulated over previous runs when
`includePrev` is set) and tolerance are compared by `is_matching_core`. -/
def is_run_matching_options (cap : ℚ) (chain : List Run) (run_dir : Option Nat)
    (opts : SpinupOptions) (includePrev : Bool) : Except MatchError (Bool × Bool) :=
  match run_dir with
  | none => .ok (false, false)
  | some i =>
    is_matching_core cap
      (if includePrev then real_years chain i else real_years_single chain i)
      (real_tolerance chain i) opts

/-- Boolean view of `is_run_matching_options` with `include_previous_runs=True`,
used inside the backward walk of `matching_run_dir`.  The `.error` case is
unreachable there because the same options already passed a successful
matching check before the walk starts. -/
def runMatchesB (cap : ℚ) (chain : List Run) (run_dir : Option Nat)
    (opts : SpinupOptions) : Bool :=
  match is_run_matching_options cap chain run_dir opts true with
  | .ok p => p.1
  | .error _ => false

/-- Translation of `Model_Database.last_run_dir`: the run directory with the
highest index, or `none` when the spinup directory holds no run. -/
def last_run_dir (chain : List Run) : Option Nat :=
  if chain.isEmpty then none else some (chain.length - 1)

/-- Translation of the `equal_or_nearest_better` while loop of
`Model_Database.matching_run_dir`: starting at a matching run index, step to
the previous run as long as it still matches. -/
def walkback (cap : ℚ) (chain : List Run) (opts : SpinupOptions) : Nat → Nat
  | 0 => 0
  | i + 1 => if runMatchesB cap chain (some i) opts then walkback cap chain opts i else i + 1

/-- One job handed to the external batch system via `start_run`. -/
structure JobRequest where
  years : ℚ
  tolerance : ℚ
  warmStart : Bool
  writeTrajectory : Bool
  blocking : Bool
deriving DecidableEq

/-- State of one parameter-set identity in the run database: its spinup run
chain, the chain of the closest stored parameter set (empty when none exists),
and the log of jobs handed to the batch system. -/
structure DB where
  chain : List Run
  closest : List Run
  jobs : List JobRequest
deriving DecidableEq

/-- Translation of the `combination == 'or'` extension branch of
`Model_Database.matching_run_dir` (together with the preceding fallback to
the closest parameter set's chain): create the next run directory, request
`years` minus the warm-start source's accumulated years, submit a blocking
spinup job, and append its outcome (given by the `oracle`, indexed by the
number of jobs submitted so far) to the chain. -/
def orExtend (cfg : Config) (oracle : Nat → Run) (opts : SpinupOptions) (db : DB) :
    DB × Nat :=
  let warmYears : Option ℚ :=
    if db.chain.isEmpty then
      if cfg.startFromClosest && !db.closest.isEmpty then
        some (real_years db.closest (db.closest.length - 1))
      else
        none
    else
      some (real_years db.chain (db.chain.length - 1))
  let newIdx := db.chain.length
  let reqYears := match warmYears with
    | some ly => opts.years - ly
    | none => opts.years
  let job : JobRequest :=
    { years := reqYears, tolerance := opts.tolerance, warmStart := warmYears.isSome,
      writeTrajectory := false, blocking := true }
  let newRun := oracle db.jobs.length
  ({ chain := db.chain ++ [newRun], closest := db.closest, jobs := db.jobs ++ [job] }, newIdx)

/-- One unfolding step of `Model_Database.matching_run_dir`; `recur` stands
for the recursive calls made by the `combination == 'and'` branch. -/
def matching_run_dir_step (cfg : Config) (oracle : Nat → Run)
    (recur : SpinupOptions → DB → Except MatchError (DB × Nat))
    (opts : SpinupOptions) (db : DB) : Except MatchError (DB × Nat) :=
  match is_run_matching_options cfg.cap db.chain (last_run_dir db.chain) opts true with
  | .error e => .error e
  | .ok (true, _) =>
    let lastIdx := db.chain.length - 1
    let idx := if opts.match_type = "equal_or_nearest_better" then
        walkback cfg.cap db.chain opts lastIdx
      else
        lastIdx
    .ok (db, idx)
  | .ok (false, _) =>
    if opts.combination = "or" then
      .ok (orExtend cfg oracle opts db)
    else if opts.combination = "and" then do
      let r1 ← recur { years := opts.years, tolerance := 0, combination := "or",
                       match_type := cfg.defaultMatchType } db
      recur { years := cfg.cap, tolerance := opts.tolerance, combination := "or",
              match_type := cfg.defaultMatchType } r1.1
    else
      .error .assertionFailed

/-- Translation of `Model_Database.matching_run_dir`, indexed by a fuel bound
on the recursion depth.  The recursive calls of the `"and"` branch carry
combination `"or"` and never recurse further, so any positive fuel gives the
behaviour of the Python function. -/
def matching_run_dir (cfg : Config) (oracle : Nat → Run) :
    Nat → SpinupOptions → DB → Except MatchError (DB × Nat)
  | 0 => matching_run_dir_step cfg oracle (fun _ _ => .error .outOfFuel)
  | fuel + 1 => matching_run_dir_step cfg oracle (matching_run_dir cfg oracle fuel)

/-! Factor ids of partial-derivative runs
(`Model_With_F_And_DF._df.start_partial_derivative_run`, first part). -/

/-- Rounding as performed by `np.round` on the quantized step multiplier:
round half to even. -/
def roundHalfToEven (x : ℚ) : ℤ :=
  let f := ⌊x⌋
  let frac := x - f
  if frac < 1 / 2 then f
  else if 1 / 2 < frac then f + 1
  else if f % 2 = 0 then f else f + 1

/-- Quantization of a step multiplier:
`np.round(h_factor * 10**PRECISION) / 10**PRECISION`. -/
def quantizeFactor (precision : Nat) (x : ℚ) : ℚ :=
  (roundHalfToEven (x * 10 ^ precision) : ℚ) / 10 ^ precision

/-- Data of the factor-id computation: the undisturbed parameter vector, the
typical parameter magnitudes, the finite-difference step size, and the
decimal precision of the quantization.  The precision value
(`DATABASE_PARTIAL_DERIVATIVE_FACTOR_ID_FLOAT_PRECISION`) lives in
`simulation.model.constants`, which is not part of the sources, so it is kept
abstract here. -/
structure DerivativeSetup where
  undisturbed : List ℚ
  typical : List ℚ
  step : ℚ
  precision : Nat
deriving DecidableEq

/-- Translation of
`np.where(partial_derivative_parameters != partial_derivative_parameters_undisturbed)[0]`:
the ascending list of component indices where the perturbed vector differs
from the undisturbed one. -/
def changedIndices (ds : DerivativeSetup) (q : List ℚ) : List Nat :=
  (List.range ds.undisturbed.length).filter
    (fun i => if q.getD i 0 = ds.undisturbed.getD i 0 then false else true)

/-- Quantized step multiplier of component `i`:
`h / (typical * step)` rounded to the configured decimal precision. -/
def hFactorAt (ds : DerivativeSetup) (q : List ℚ) (i : Nat) : ℚ :=
  quantizeFactor ds.precision
    ((q.getD i 0 - ds.undisturbed.getD i 0) / (ds.typical.getD i 0 * ds.step))

/-- Factor id of a stencil point, as the list of
(parameter index, quantized step multiplier) pairs joined into the
partial-derivative directory name.  The unperturbed point gets the reserved
id `(-1, 0)`.  The integer/float formatting split of the Python code only
affects the rendering of the same quantized number
(the templates live in the absent `simulation.model.constants`), so the id is
modelled as the list of pairs itself. -/
def factorId (ds : DerivativeSetup) (q : List ℚ) : List (ℤ × ℚ) :=
  let changed := changedIndices ds q
  if changed.isEmpty then [(-1, 0)]
  else changed.map (fun i => (Int.ofNat i, hFactorAt ds q i))

/-! Partial-derivative fan-out decision
(`Model_With_F_And_DF._df.start_partial_derivative_run`, second part). -/

/-- Outcome of probing the job record of an existing partial-derivative
directory: either the `JobOptionFileError` of a malformed or missing record,
or the achieved years/tolerance of the partial-derivative run itself
(`include_previous_runs=False`) together with the accumulated
years/tolerance of the spinup run its tracer input files point to
(`include_previous_runs=True`). -/
inductive Probe where
  | jobError
  | record (pdYears pdTolerance spinupYears spinupTolerance : ℚ)
deriving DecidableEq

/-- Effect of one fan-out decision: whether the directory contents were
purged and which job, if any, was submitted. -/
structure PDAction where
  purged : Bool
  submitted : Option JobRequest
deriving DecidableEq

/-- Spinup options used for the partial-derivative runs:
`{'years': derivative years, 'tolerance': 0, 'combination': 'or'}`; the
match type defaults as in `Config.defaultMatchType`. -/
def pdOptions (pdSpinupYears : ℚ) (mt : String) : SpinupOptions :=
  { years := pdSpinupYears, tolerance := 0, combination := "or", match_type := mt }

/-- Non-blocking warm-started partial-derivative job submitted by the
fan-out: `start_run(..., years=derivative years, tolerance=0,
tracer_input_files=<spinup run output>, wait_until_finished=False)`. -/
def pdJob (pdSpinupYears : ℚ) : JobRequest :=
  { years := pdSpinupYears, tolerance := 0, warmStart := true,
    writeTrajectory := false, blocking := false }

/-- Translation of the reuse-or-resubmit decision of
`start_partial_derivative_run`: a `JobOptionFileError` while probing means
"not matching"; otherwise the directory is reused exactly when its own run
matches the partial-derivative options and the referenced spinup run matches
the base spinup options (the Python `and` short-circuits).  A non-matching
directory has its contents purged and a new non-blocking warm-started job is
submitted. -/
def start_partial_derivative_run (cap pdSpinupYears : ℚ) (spinupOpts : SpinupOptions)
    (mt : String) (probe : Probe) : Except MatchError PDAction :=
  let matchingE : Except MatchError Bool :=
    match probe with
    | .jobError => .ok false
    | .record pdY pdT sY sT => do
      let r1 ← is_matching_core cap pdY pdT (pdOptions pdSpinupYears mt)
      if r1.1 then do
        let r2 ← is_matching_core cap sY sT spinupOpts
        .ok r2.1
      else
        .ok false
  match matchingE with
  | .error e => .error e
  | .ok true => .ok { purged := false, submitted := none }
  | .ok false => .ok { purged := true, submitted := some (pdJob pdSpinupYears) }

/-! Merging and splitting of named data sets
(`Model_With_F._merge_data_sets` / `_split_data_sets`). -/

/-- Value of one tracer entry: either a plain numeric array or a mapping of
named data-set arrays. -/
inductive TracerValue where
  | plain (values : List ℚ)
  | datasets (sets : List (String × List ℚ))
deriving DecidableEq

/-- Offset slices recorded by `_merge_data_sets`: for each data set its name
together with the start and stop index of its block in the concatenation. -/
def buildSlices : List (String × List ℚ) → Nat → List (String × Nat × Nat)
  | [], _ => []
  | (n, a) :: rest, start => (n, start, start + a.length) :: buildSlices rest (start + a.length)

/-- Concatenation of all data-set arrays of one tracer
(`np.concatenate(data_set_values_list, axis=0)`). -/
def concatSets (sets : List (String × List ℚ)) : List ℚ :=
  (sets.map Prod.snd).flatten

/-- Translation of `Model_With_F._merge_data_sets` with `concatenate_axis=0`:
plain arrays pass through; data-set mappings are concatenated in iteration
order while the offset slices are recorded.  A tracer whose data-set mapping
is empty raises (`np.concatenate` of an empty list), modelled by `.error`. -/
def mergeDataSets : List (String × TracerValue) →
    Except Unit (List (String × List ℚ) × List (String × List (String × Nat × Nat)))
  | [] => .ok ([], [])
  | (tracer, .plain a) :: rest => do
    let r ← mergeDataSets rest
    .ok ((tracer, a) :: r.1, r.2)
  | (tracer, .datasets sets) :: rest =>
    if sets.isEmpty then .error ()
    else do
      let r ← mergeDataSets rest
      .ok ((tracer, concatSets sets) :: r.1, (tracer, buildSlices sets 0) :: r.2)

/-- Application of one recorded slice `value[start:stop]`. -/
def applySlice (v : List ℚ) (s : Nat × Nat) : List ℚ :=
  (v.drop s.1).take (s.2 - s.1)

/-- Translation of `Model_With_F._split_data_sets`: each merged tracer whose
name appears in the split dictionary is cut back into its named data sets;
the others pass through as plain arrays. -/
def splitDataSets (merged : List (String × List ℚ))
    (splitDict : List (String × List (String × Nat × Nat))) :
    List (String × TracerValue) :=
  merged.map (fun tv =>
    match splitDict.lookup tv.1 with
    | none => (tv.1, TracerValue.plain tv.2)
    | some slices =>
      (tv.1, TracerValue.datasets (slices.map (fun s => (s.1, applySlice tv.2 s.2)))))

/-! Value and derivative requests (`Model_With_F.f_all`,
`Model_With_F_And_DF._df`). -/

/-- Translation of `Model_With_F.check_tracers` for an explicitly given
tracer tuple: every requested tracer must be a model tracer, otherwise the
`ValueError` is raised. -/
def check_tracers (modelTracers : List String) (tracers : List String) :
    Except MatchError (List String) :=
  if tracers.all (fun t => modelTracers.contains t) then .ok tracers
  else .error .unsupportedTracer

/-- Translation of `Model_With_F._trajectory_with_load_function`: with at
least one tracer a blocking one-year trajectory job (warm-started from the
run's output, `write_trajectory=True`) is submitted and the per-tracer values
are loaded; with zero tracers the empty mapping is returned and no job is
submitted.  The loaded values are given by the abstract `load` function. -/
def trajectory_with_load_function (load : String → List ℚ) (tracers : List String) :
    List (String × List ℚ) × List JobRequest :=
  if 0 < tracers.length then
    (tracers.map (fun t => (t, load t)),
      [{ years := 1, tolerance := 0, warmStart := true, writeTrajectory := true,
         blocking := true }])
  else
    ([], [])

/-- Translation of `Model_With_F.f_all` (through `_f`): check the tracers,
resolve the matching spinup run via `self.run_dir` (which may extend the
chain and submit spinup jobs), then read the trajectory.  The time dimension
only parameterizes the `load` function. -/
def f_all (cfg : Config) (oracle : Nat → Run) (spinupOpts : SpinupOptions)
    (modelTracers : List String) (load : String → List ℚ) (db : DB)
    (tracers : List String) : Except MatchError (DB × List (String × List ℚ)) := do
  let tr ← check_tracers modelTracers tracers
  let r ← matching_run_dir cfg oracle 1 spinupOpts db
  let p := trajectory_with_load_function load tr
  .ok ({ r.1 with jobs := r.1.jobs ++ p.2 }, p.1)

/-- Translation of the orchestration skeleton of `Model_With_F_And_DF._df`:
check the tracers and return the empty mapping at once when none are
requested (before any directory or job work); otherwise resolve the base
spinup run, run the fan-out decision for every stencil point (with `probes`
giving the per-point directory probe outcome), and hand the per-point values
to the external finite-difference utility.  The numeric fan-in is modelled
from the spec by the abstract evaluator `fdEval`:
`util.math.finite_differences` is not part of the sources. -/
def df (cfg : Config) (oracle : Nat → Run) (spinupOpts : SpinupOptions)
    (modelTracers : List String) (pdSpinupYears : ℚ) (probes : Nat → Probe)
    (fdEval : String → List ℚ) (stencilSize : Nat) (db : DB)
    (tracers : List String) : Except MatchError (DB × List (String × List ℚ)) := do
  let tr ← check_tracers modelTracers tracers
  if tr.length = 0 then
    .ok (db, [])
  else do
    let r ← matching_run_dir cfg oracle 1 spinupOpts db
    let acts ← (List.range stencilSize).mapM
      (fun k => start_partial_derivative_run cfg.cap pdSpinupYears spinupOpts
        cfg.defaultMatchType (probes k))
    .ok ({ r.1 with jobs := r.1.jobs ++ acts.filterMap (fun a => a.submitted) },
      tr.map (fun t => (t, fdEval t)))

/-! Run-directory creation (`Model_Database.make_new_run_dir`,
`Model_Database.run_dirs`).  The contents of a spinup directory are modelled
as the finite set of run indices whose run directory exists;
`run_dirs` returns them, so its length is the set's cardinality. -/

/-- Model of `os.makedirs(run_dir, exist_ok=False)`: fails when the
directory already exists. -/
def makedirs_exist_ok_false (s : Finset ℕ) (k : ℕ) : Except Unit (Finset ℕ) :=
  if k ∈ s then .error () else .ok (insert k s)

/-- Translation of `Model_Database.make_new_run_dir`: the next run index is
the number of discovered run directories, and the directory is created with
`exist_ok=False`. -/
def make_new_run_dir (s : Finset ℕ) : Except Unit (Finset ℕ × ℕ) :=
  let nextRunIndex := s.card
  (makedirs_exist_ok_false s nextRunIndex).map (fun s2 => (s2, nextRunIndex))

/-! Theorems. -/

/-- C1: for every existing run directory and every `SpinupOptions`,
`is_run_matching_options` decides the match exactly per the combination rule:
with combination `"or"` it matches iff the accumulated years reach the
requested years or the achieved tolerance reaches the requested tolerance;
with combination `"and"` it matches iff (years and tolerance are both
reached) or the accumulated years reach the max-spinup-years cap, and the
warning is emitted iff the match holds while the achieved tolerance still
exceeds the requested tolerance. -/
theorem is_run_matching_options_combination_rule
    (cap : ℚ) (chain : List Run) (i : Nat) (opts : SpinupOptions) (b w : Bool)
    (_hexist : i < chain.length)
    (hres : is_run_matching_options cap chain (some i) opts true = .ok (b, w)) :
    (opts.combination = "or" →
      ((b = true ↔ (opts.years ≤ real_years chain i ∨ real_tolerance chain i ≤ opts.tolerance))
        ∧ w = false))
    ∧ (opts.combination = "and" →
      ((b = true ↔ ((opts.years ≤ real_years chain i ∧ real_tolerance chain i ≤ opts.tolerance)
          ∨ cap ≤ real_years chain i))
        ∧ (w = true ↔ (b = true ∧ opts.tolerance < real_tolerance chain i)))) := by
  constructor
  · intro hor
    simp only [is_run_matching_options, is_matching_core, hor, reduceIte, if_true] at hres
    rw [if_neg (show ¬ ("or" : String) = "and" by decide)] at hres
    rw [Except.ok.injEq, Prod.mk.injEq] at hres
    obtain ⟨hb, hw⟩ := hres
    subst hb hw
    constructor
    · by_cases hP : opts.years ≤ real_years chain i ∨ real_tolerance chain i ≤ opts.tolerance
      · simp [hP]
      · simp [hP]
    · rfl
  · intro hand
    simp only [is_run_matching_options, is_matching_core, hand, reduceIte, if_true] at hres
    rw [Except.ok.injEq, Prod.mk.injEq] at hres
    obtain ⟨hb, hw⟩ := hres
    subst hb hw
    by_cases hP : (opts.years ≤ real_years chain i ∧ real_tolerance chain i ≤ opts.tolerance)
        ∨ cap ≤ real_years chain i
    · by_cases hT : opts.tolerance < real_tolerance chain i
      · simp [hP, hT]
      · simp [hP, hT]
    · simp [hP]

/-- Witness for C1, at the spec's own test vector: with
`years=1000, tolerance=1e-4, cap=5000`, a chain at 5000 years and achieved
tolerance 1e-2 matches under combination `"and"`, with the warning. -/
theorem is_run_matching_options_combination_rule_witness :
    is_run_matching_options 5000 [⟨5000, 1/100⟩] (some 0)
      ⟨1000, 1/10000, "and", "exact"⟩ true = .ok (true, true)
    ∧ ((true = true ↔ (((1000 : ℚ) ≤ real_years [⟨5000, 1/100⟩] 0
          ∧ real_tolerance [⟨5000, 1/100⟩] 0 ≤ 1/10000)
        ∨ (5000 : ℚ) ≤ real_years [⟨5000, 1/100⟩] 0))
      ∧ (true = true ↔ (true = true ∧ (1/10000 : ℚ) < real_tolerance [⟨5000, 1/100⟩] 0))) := by
  have hres : is_run_matching_options 5000 [⟨5000, 1/100⟩] (some 0)
      ⟨1000, 1/10000, "and", "exact"⟩ true = .ok (true, true) := by
    norm_num [is_run_matching_options, is_matching_core, real_years, real_tolerance]
  exact ⟨hres,
    (is_run_matching_options_combination_rule 5000 [⟨5000, 1/100⟩] 0
      ⟨1000, 1/10000, "and", "exact"⟩ true true (by norm_num) hres).2 rfl⟩

/-- C7: `real_years` with `include_previous_runs=True` is the sum of the
per-run years of the run and of all its predecessors down to run index 0;
in particular a chain with per-run years `[5, 3, 7]` has total years 15 at
its last run. -/
theorem real_years_is_chain_prefix_sum :
    (∀ (chain : List Run) (i : Nat),
      real_years chain i = ((chain.take (i + 1)).map Run.years).sum)
    ∧ real_years [⟨5, 0⟩, ⟨3, 0⟩, ⟨7, 0⟩] 2 = 15 := by
  constructor
  · intro chain i
    induction i with
    | zero =>
      cases chain with
      | nil => simp [real_years]
      | cons a t => simp [real_years]
    | succ i ih =>
      rw [real_years, ih]
      conv_rhs => rw [List.take_succ]
      rw [List.map_append, List.sum_append]
      cases hg : chain[i + 1]? with
      | none =>
        have hd : chain.getD (i + 1) ⟨0, 0⟩ = ⟨0, 0⟩ := by
          rw [List.getD_eq_getElem?_getD, hg]
          rfl
        rw [hd]
        simp
      | some a =>
        have hd : chain.getD (i + 1) ⟨0, 0⟩ = a := by
          rw [List.getD_eq_getElem?_getD, hg]
          rfl
        rw [hd]
        simp [add_comm]
  · norm_num [real_years]

/-- C9 counterexample: when no run directory is present,
`is_run_matching_options` returns "not matching" without inspecting the
combination keyword, so an invalid keyword raises no `ValueError`,
contradicting the claim's "including the case where no run directory is
present". -/
theorem is_run_matching_options_none_no_valueerror :
    is_run_matching_options 100 [] none ⟨1, 0, "xor", "exact"⟩ true =
      .ok (false, false) := by
  norm_num [is_run_matching_options]

/-- C9 (amended): whenever a run directory is present and the combination
keyword is neither `"and"` nor `"or"`, `is_run_matching_options` raises the
`ValueError` naming the invalid keyword; with no run directory it returns
"not matching" without raising. -/
theorem is_run_matching_options_invalid_combination
    (cap : ℚ) (chain : List Run) (i : Nat) (opts : SpinupOptions) (includePrev : Bool)
    (h1 : opts.combination ≠ "and") (h2 : opts.combination ≠ "or") :
    is_run_matching_options cap chain (some i) opts includePrev =
      .error (.invalidCombination opts.combination) := by
  simp [is_run_matching_options, is_matching_core, h1, h2]

/-- Witness for C9's amended theorem at the concrete keyword `"xor"`. -/
theorem is_run_matching_options_invalid_combination_witness :
    is_run_matching_options 100 [⟨1, 0⟩] (some 0) ⟨1, 0, "xor", "exact"⟩ true =
      .error (.invalidCombination "xor") := by
  exact is_run_matching_options_invalid_combination 100 [⟨1, 0⟩] 0
    ⟨1, 0, "xor", "exact"⟩ true (by decide) (by decide)

/-- C10: `make_new_run_dir` creates and returns the run directory whose
index is the current count of discovered run directories — so starting from
a contiguous set of indices `0..n-1` the new index is `n` and the set stays
contiguous — and the `exist_ok=False` directory creation raises instead of
reusing an existing directory at that index, so a second creation attempt of
the same index against the resulting state must fail. -/
theorem make_new_run_dir_spec :
    (∀ n : ℕ, make_new_run_dir (Finset.range n) = .ok (Finset.range (n + 1), n))
    ∧ (∀ (s s2 : Finset ℕ) (k : ℕ), make_new_run_dir s = .ok (s2, k) →
        k = s.card ∧ k ∉ s ∧ k ∈ s2 ∧ makedirs_exist_ok_false s2 k = .error ()) := by
  constructor
  · intro n
    simp [make_new_run_dir, makedirs_exist_ok_false, Except.map, Finset.range_succ]
  · intro s s2 k h
    rw [make_new_run_dir, makedirs_exist_ok_false] at h
    by_cases hmem : s.card ∈ s
    · simp [hmem, Except.map] at h
    · simp only [hmem, if_neg, ite_false, Except.map] at h
      rw [Except.ok.injEq, Prod.mk.injEq] at h
      obtain ⟨hs2, hk⟩ := h
      subst hk
      subst hs2
      refine ⟨rfl, hmem, Finset.mem_insert_self _ _, ?_⟩
      rw [makedirs_exist_ok_false, if_pos (Finset.mem_insert_self _ _)]

/-- Witness for C10: on the contiguous state `{0}` the new run directory
gets index 1, the state becomes `{0, 1}`, and re-creating index 1 there
fails. -/
theorem make_new_run_dir_spec_witness :
    make_new_run_dir (Finset.range 1) = .ok (Finset.range 2, 1)
    ∧ (1 ∉ Finset.range 1 ∧ makedirs_exist_ok_false (Finset.range 2) 1 = .error ()) := by
  refine ⟨make_new_run_dir_spec.1 1, ?_, ?_⟩
  · exact (make_new_run_dir_spec.2 (Finset.range 1) (Finset.range 2) 1
      (make_new_run_dir_spec.1 1)).2.1
  · exact (make_new_run_dir_spec.2 (Finset.range 1) (Finset.range 2) 1
      (make_new_run_dir_spec.1 1)).2.2.2

/-- C5: the derivative fan-out submits no job when the probed
partial-derivative directory holds a run matching both the
partial-derivative options and the base spinup options (the run is reused);
otherwise it purges the directory contents and submits a new non-blocking
warm-started job; and a malformed or missing job record
(`JobOptionFileError`) is treated as "no run yet" — purge and resubmit —
never as a fatal error. -/
theorem start_partial_derivative_run_spec (cap pdY : ℚ) (so : SpinupOptions) (mt : String) :
    (start_partial_derivative_run cap pdY so mt .jobError =
      .ok { purged := true, submitted := some (pdJob pdY) })
    ∧ (∀ (pY pT sY sT : ℚ) (b1 w1 b2 w2 : Bool),
        is_matching_core cap pY pT (pdOptions pdY mt) = .ok (b1, w1) →
        is_matching_core cap sY sT so = .ok (b2, w2) →
        start_partial_derivative_run cap pdY so mt (.record pY pT sY sT) =
          .ok (if b1 && b2 then { purged := false, submitted := none }
               else { purged := true, submitted := some (pdJob pdY) })) := by
  constructor
  · rfl
  · intro pY pT sY sT b1 w1 b2 w2 h1 h2
    rw [start_partial_derivative_run]
    cases b1 <;> cases b2 <;>
      simp [h1, h2, Bind.bind, Except.bind]

/-- Witness for C5: a concrete probe whose partial-derivative run and
referenced spinup run both match is reused without purge or submission. -/
theorem start_partial_derivative_run_spec_witness :
    is_matching_core 100 10 0 (pdOptions 10 "exact") = .ok (true, false)
    ∧ is_matching_core 100 5 (1/100) ⟨5, 1/10, "or", "exact"⟩ = .ok (true, false)
    ∧ start_partial_derivative_run 100 10 ⟨5, 1/10, "or", "exact"⟩ "exact"
        (.record 10 0 5 (1/100)) = .ok { purged := false, submitted := none } := by
  have h1 : is_matching_core 100 10 0 (pdOptions 10 "exact") = .ok (true, false) := by
    norm_num [is_matching_core, pdOptions]
  have h2 : is_matching_core 100 5 (1/100) ⟨5, 1/10, "or", "exact"⟩ = .ok (true, false) := by
    norm_num [is_matching_core]
  refine ⟨h1, h2, ?_⟩
  simpa using (start_partial_derivative_run_spec 100 10 ⟨5, 1/10, "or", "exact"⟩ "exact").2
    10 0 5 (1/100) true false true false h1 h2

/-- Helper: for combination `"or"` the recursion argument of
`matching_run_dir_step` is never used, because the or-branch extends the
chain without recursing. -/
theorem matching_run_dir_step_or_recur_irrelevant (cfg : Config) (oracle : Nat → Run)
    (R1 R2 : SpinupOptions → DB → Except MatchError (DB × Nat))
    (opts : SpinupOptions) (db : DB) (h : opts.combination = "or") :
    matching_run_dir_step cfg oracle R1 opts db =
      matching_run_dir_step cfg oracle R2 opts db := by
  rw [matching_run_dir_step, matching_run_dir_step]
  cases hres : is_run_matching_options cfg.cap db.chain (last_run_dir db.chain) opts true with
  | error e => rfl
  | ok p =>
    obtain ⟨b, w⟩ := p
    cases b
    · simp [h]
    · rfl

/-- Helper: the result of `matching_run_dir` for combination `"or"` does not
depend on the fuel bound — an or-resolution never recurses. -/
theorem matching_run_dir_or_fuel_independent (cfg : Config) (oracle : Nat → Run)
    (f g : Nat) (opts : SpinupOptions) (db : DB) (h : opts.combination = "or") :
    matching_run_dir cfg oracle f opts db = matching_run_dir cfg oracle g opts db := by
  have hany : ∀ k, matching_run_dir cfg oracle k opts db =
      matching_run_dir_step cfg oracle (fun _ _ => .error .outOfFuel) opts db := by
    intro k
    cases k with
    | zero => rfl
    | succ k => exact matching_run_dir_step_or_recur_irrelevant cfg oracle _ _ opts db h
  rw [hany f, hany g]

/-- C2: with combination `"and"` and a non-matching last run,
`matching_run_dir` resolves the request as exactly two sequential OR
sub-resolutions — first `{years: requested years, tolerance: 0,
combination: OR}`, then `{years: max-spinup-years cap, tolerance: requested
tolerance, combination: OR}` on the state the first one produced — and
returns the second sub-resolution's run directory.  The sub-resolutions are
genuine OR resolutions: their fuel bounds `f1`, `f2` are arbitrary. -/
theorem matching_run_dir_and_resolves_as_two_or (cfg : Config) (oracle : Nat → Run)
    (fuel f1 f2 : Nat) (opts : SpinupOptions) (db : DB) (w : Bool)
    (h1 : opts.combination = "and")
    (h2 : is_run_matching_options cfg.cap db.chain (last_run_dir db.chain) opts true =
      .ok (false, w)) :
    matching_run_dir cfg oracle (fuel + 1) opts db =
      (do
        let r1 ← matching_run_dir cfg oracle f1
          { years := opts.years, tolerance := 0, combination := "or",
            match_type := cfg.defaultMatchType } db
        matching_run_dir cfg oracle f2
          { years := cfg.cap, tolerance := opts.tolerance, combination := "or",
            match_type := cfg.defaultMatchType } r1.1) := by
  have hstep : matching_run_dir cfg oracle (fuel + 1) opts db =
      matching_run_dir_step cfg oracle (matching_run_dir cfg oracle fuel) opts db := rfl
  rw [hstep]
  rw [matching_run_dir_step, h2, h1]
  rw [if_neg (show ¬ ("and" : String) = "or" by decide), if_pos rfl]
  rw [matching_run_dir_or_fuel_independent cfg oracle fuel f1
    { years := opts.years, tolerance := 0, combination := "or",
      match_type := cfg.defaultMatchType } db rfl]
  have hlam : ∀ dbx : DB, matching_run_dir cfg oracle fuel
      { years := cfg.cap, tolerance := opts.tolerance, combination := "or",
        match_type := cfg.defaultMatchType } dbx =
      matching_run_dir cfg oracle f2
        { years := cfg.cap, tolerance := opts.tolerance, combination := "or",
          match_type := cfg.defaultMatchType } dbx :=
    fun dbx => matching_run_dir_or_fuel_independent cfg oracle fuel f2 _ dbx rfl
  simp only [hlam]

/-- Witness for C2 at a concrete non-matching chain under an
`"and"` request. -/
theorem matching_run_dir_and_resolves_as_two_or_witness :
    is_run_matching_options 100 [⟨1, 1⟩] (last_run_dir [⟨1, 1⟩])
      ⟨10, 0, "and", "exact"⟩ true = .ok (false, false)
    ∧ matching_run_dir ⟨100, false, "exact"⟩ (fun _ => ⟨200, 0⟩) 1
        ⟨10, 0, "and", "exact"⟩ ⟨[⟨1, 1⟩], [], []⟩ =
      (do
        let r1 ← matching_run_dir ⟨100, false, "exact"⟩ (fun _ => ⟨200, 0⟩) 0
          { years := (10 : ℚ), tolerance := 0, combination := "or", match_type := "exact" }
          ⟨[⟨1, 1⟩], [], []⟩
        matching_run_dir ⟨100, false, "exact"⟩ (fun _ => ⟨200, 0⟩) 0
          { years := (100 : ℚ), tolerance := 0, combination := "or", match_type := "exact" }
          r1.1) := by
  have h2 : is_run_matching_options 100 [⟨1, 1⟩] (last_run_dir [⟨1, 1⟩])
      ⟨10, 0, "and", "exact"⟩ true = .ok (false, false) := by
    norm_num [is_run_matching_options, is_matching_core, real_years, real_tolerance,
      last_run_dir]
  exact ⟨h2, matching_run_dir_and_resolves_as_two_or ⟨100, false, "exact"⟩
    (fun _ => ⟨200, 0⟩) 0 0 0 ⟨10, 0, "and", "exact"⟩ ⟨[⟨1, 1⟩], [], []⟩ false rfl h2⟩

/-- Helper: invariant of the `equal_or_nearest_better` backward walk.
Starting from a matching run index, the walk lands on a matching index, every
index between the result and the start still matches, and either the result
is run 0 or its immediate predecessor does not match. -/
theorem walkback_invariant (cap : ℚ) (chain : List Run) (opts : SpinupOptions) :
    ∀ i, runMatchesB cap chain (some i) opts = true →
      walkback cap chain opts i ≤ i
      ∧ runMatchesB cap chain (some (walkback cap chain opts i)) opts = true
      ∧ (∀ j, walkback cap chain opts i ≤ j → j ≤ i →
          runMatchesB cap chain (some j) opts = true)
      ∧ (walkback cap chain opts i = 0
          ∨ runMatchesB cap chain (some (walkback cap chain opts i - 1)) opts = false) := by
  intro i
  induction i with
  | zero =>
    intro h
    refine ⟨le_refl 0, h, ?_, Or.inl rfl⟩
    intro j hj1 hj2
    have : j = 0 := Nat.le_antisymm hj2 (Nat.zero_le j)
    rw [this]
    exact h
  | succ i ih =>
    intro h
    by_cases hm : runMatchesB cap chain (some i) opts = true
    · have hw : walkback cap chain opts (i + 1) = walkback cap chain opts i := by
        rw [walkback, if_pos hm]
      obtain ⟨ihle, ihmatch, ihall, ihpred⟩ := ih hm
      rw [hw]
      refine ⟨Nat.le_succ_of_le ihle, ihmatch, ?_, ihpred⟩
      intro j hj1 hj2
      rcases Nat.lt_or_ge j (i + 1) with hlt | hge
      · exact ihall j hj1 (Nat.lt_succ_iff.mp hlt)
      · have : j = i + 1 := Nat.le_antisymm hj2 hge
        rw [this]
        exact h
    · have hmf : runMatchesB cap chain (some i) opts = false :=
        Bool.eq_false_iff.mpr hm
      have hw : walkback cap chain opts (i + 1) = i + 1 := by
        rw [walkback, if_neg (by rw [hmf]; exact Bool.false_ne_true)]
      rw [hw]
      refine ⟨le_refl _, h, ?_, Or.inr (by simpa using hmf)⟩
      intro j hj1 hj2
      have : j = i + 1 := Nat.le_antisymm hj2 hj1
      rw [this]
      exact h

/-- C3 counterexample: the claim "never returns a later run when an earlier
run in the chain already satisfies the options" is false.  On the chain with
(per-run years, tolerance) `[(5, 1/10), (5, 1/2), (5, 1/20)]` and options
`years=100, tolerance=1/5, combination=or,
match_type=equal_or_nearest_better`, the backward walk stops at the
non-matching middle run and returns run 2, although run 0 already satisfies
the options. -/
theorem matching_run_dir_not_earliest_matching_run :
    matching_run_dir ⟨10000, false, "exact"⟩ (fun _ => ⟨0, 0⟩) 0
      ⟨100, 1/5, "or", "equal_or_nearest_better"⟩
      ⟨[⟨5, 1/10⟩, ⟨5, 1/2⟩, ⟨5, 1/20⟩], [], []⟩ =
      .ok (⟨[⟨5, 1/10⟩, ⟨5, 1/2⟩, ⟨5, 1/20⟩], [], []⟩, 2)
    ∧ runMatchesB 10000 [⟨5, 1/10⟩, ⟨5, 1/2⟩, ⟨5, 1/20⟩] (some 0)
        ⟨100, 1/5, "or", "equal_or_nearest_better"⟩ = true := by
  constructor
  · norm_num [matching_run_dir, matching_run_dir_step, is_run_matching_options,
      is_matching_core, real_years, real_tolerance, last_run_dir, walkback, runMatchesB]
    simp
  · norm_num [runMatchesB, is_run_matching_options, is_matching_core, real_years,
      real_tolerance]
    simp

/-- C3 (amended): when the last run matches and
`match_type = equal_or_nearest_better`, `matching_run_dir` walks backward and
returns the earliest run of the contiguous block of matching runs ending at
the last run: the returned run matches, every run from it up to the last run
matches, and either it is run 0 or its immediate predecessor does not match
(so it never returns a later run whose immediate predecessor still
satisfies the options). -/
theorem matching_run_dir_nearest_better_contiguous (cfg : Config) (oracle : Nat → Run)
    (fuel : Nat) (opts : SpinupOptions) (db : DB) (w : Bool)
    (hne : db.chain ≠ [])
    (hmt : opts.match_type = "equal_or_nearest_better")
    (hm : is_run_matching_options cfg.cap db.chain (last_run_dir db.chain) opts true =
      .ok (true, w)) :
    matching_run_dir cfg oracle fuel opts db =
      .ok (db, walkback cfg.cap db.chain opts (db.chain.length - 1))
    ∧ runMatchesB cfg.cap db.chain
        (some (walkback cfg.cap db.chain opts (db.chain.length - 1))) opts = true
    ∧ (∀ j, walkback cfg.cap db.chain opts (db.chain.length - 1) ≤ j →
        j ≤ db.chain.length - 1 → runMatchesB cfg.cap db.chain (some j) opts = true)
    ∧ (walkback cfg.cap db.chain opts (db.chain.length - 1) = 0
        ∨ runMatchesB cfg.cap db.chain
            (some (walkback cfg.cap db.chain opts (db.chain.length - 1) - 1)) opts = false) := by
  have hl : last_run_dir db.chain = some (db.chain.length - 1) := by
    simp [last_run_dir, List.isEmpty_iff, hne]
  have hm2 : is_run_matching_options cfg.cap db.chain (some (db.chain.length - 1)) opts true =
      .ok (true, w) := by
    rw [← hl]
    exact hm
  have htop : runMatchesB cfg.cap db.chain (some (db.chain.length - 1)) opts = true := by
    simp [runMatchesB, hm2]
  have hres : matching_run_dir cfg oracle fuel opts db =
      .ok (db, walkback cfg.cap db.chain opts (db.chain.length - 1)) := by
    have hany : matching_run_dir cfg oracle fuel opts db =
        matching_run_dir_step cfg oracle
          (match fuel with
            | 0 => fun _ _ => .error .outOfFuel
            | k + 1 => matching_run_dir cfg oracle k) opts db := by
      cases fuel <;> rfl
    rw [hany, matching_run_dir_step, hm, hmt]
    simp
  obtain ⟨_, hmatch, hall, hpred⟩ :=
    walkback_invariant cfg.cap db.chain opts (db.chain.length - 1) htop
  exact ⟨hres, hmatch, hall, hpred⟩

/-- Witness for C3's amended theorem: a two-run chain whose last run matches
while its predecessor does not; the walk returns the last run itself. -/
theorem matching_run_dir_nearest_better_contiguous_witness :
    matching_run_dir ⟨1000, false, "exact"⟩ (fun _ => ⟨0, 0⟩) 1
      ⟨10, 0, "or", "equal_or_nearest_better"⟩ ⟨[⟨5, 1⟩, ⟨5, 0⟩], [], []⟩ =
      .ok (⟨[⟨5, 1⟩, ⟨5, 0⟩], [], []⟩,
        walkback 1000 [⟨5, 1⟩, ⟨5, 0⟩] ⟨10, 0, "or", "equal_or_nearest_better"⟩ 1) := by
  have hm : is_run_matching_options 1000 [⟨5, 1⟩, ⟨5, 0⟩]
      (last_run_dir [⟨5, 1⟩, ⟨5, 0⟩]) ⟨10, 0, "or", "equal_or_nearest_better"⟩ true =
      .ok (true, false) := by
    norm_num [is_run_matching_options, is_matching_core, real_years, real_tolerance,
      last_run_dir]
  exact (matching_run_dir_nearest_better_contiguous ⟨1000, false, "exact"⟩
    (fun _ => ⟨0, 0⟩) 1 ⟨10, 0, "or", "equal_or_nearest_better"⟩
    ⟨[⟨5, 1⟩, ⟨5, 0⟩], [], []⟩ false (by simp) rfl hm).1

/-- C4 counterexample: two perturbations whose step multipliers differ by
less than the quantization precision can still produce different factor ids,
because rounding has a decision boundary at every half-unit of the last
decimal place.  With precision 3, undisturbed vector `[0]`, typical values
`[1]` and step size 1, the multipliers `1/2500 = 0.0004` and
`3/5000 = 0.0006` differ by `1/5000 < 1/10^3`, yet they quantize to `0` and
`0.001` and the ids differ. -/
theorem factorId_quantization_boundary :
    factorId ⟨[0], [1], 1, 3⟩ [1/2500] = [((0 : ℤ), (0 : ℚ))]
    ∧ factorId ⟨[0], [1], 1, 3⟩ [3/5000] = [((0 : ℤ), (1/1000 : ℚ))]
    ∧ (3/5000 : ℚ) - 1/2500 < 1/10 ^ 3
    ∧ ((0 : ℤ), (0 : ℚ)) ≠ ((0 : ℤ), (1/1000 : ℚ)) := by
  have hc1 : changedIndices ⟨[0], [1], 1, 3⟩ [1/2500] = [0] := by
    norm_num [changedIndices, List.range_succ, List.filter_cons]
  have hc2 : changedIndices ⟨[0], [1], 1, 3⟩ [3/5000] = [0] := by
    norm_num [changedIndices, List.range_succ, List.filter_cons]
  have hq1 : hFactorAt ⟨[0], [1], 1, 3⟩ [1/2500] 0 = 0 := by
    norm_num [hFactorAt, quantizeFactor, roundHalfToEven, Int.fract]
  have hq2 : hFactorAt ⟨[0], [1], 1, 3⟩ [3/5000] 0 = 1/1000 := by
    norm_num [hFactorAt, quantizeFactor, roundHalfToEven, Int.fract]
  refine ⟨?_, ?_, by norm_num, ?_⟩
  · rw [factorId, hc1]
    rw [if_neg (by simp : ¬ (([0] : List ℕ).isEmpty = true))]
    rw [List.map_cons, List.map_nil, hq1]
    norm_num
  · rw [factorId, hc2]
    rw [if_neg (by simp : ¬ (([0] : List ℕ).isEmpty = true))]
    rw [List.map_cons, List.map_nil, hq2]
    norm_num
  · intro h
    rw [Prod.mk.injEq] at h
    exact absurd h.2 (by norm_num)

/-- C4 (amended): the factor id is the ascending-index list of
(parameter index, quantized step multiplier) over exactly the components
differing from the undisturbed vector; the unperturbed vector yields the
reserved id `(-1, 0)`; and two perturbations that change the same components
with step multipliers quantizing to the same values at the configured
precision yield identical factor ids. -/
theorem factorId_spec (ds : DerivativeSetup) (q1 q2 : List ℚ) :
    factorId ds ds.undisturbed = [(-1, 0)]
    ∧ List.Pairwise (· < ·) ((factorId ds q1).map Prod.fst)
    ∧ (∀ i, i ∈ changedIndices ds q1 ↔
        (i < ds.undisturbed.length ∧ q1.getD i 0 ≠ ds.undisturbed.getD i 0))
    ∧ (changedIndices ds q1 = changedIndices ds q2 →
        (∀ i ∈ changedIndices ds q1, hFactorAt ds q1 i = hFactorAt ds q2 i) →
        factorId ds q1 = factorId ds q2) := by
  refine ⟨?_, ?_, ?_, ?_⟩
  · have hch : changedIndices ds ds.undisturbed = [] := by
      rw [changedIndices]
      apply List.filter_eq_nil_iff.mpr
      intro i _
      rw [if_pos rfl]
      exact Bool.false_ne_true
    rw [factorId, hch]
    rfl
  · rw [factorId]
    by_cases hc : (changedIndices ds q1).isEmpty
    · rw [if_pos hc]
      exact List.pairwise_singleton _ _
    · rw [if_neg hc, List.map_map]
      have hpw : List.Pairwise (· < ·) (changedIndices ds q1) := by
        rw [changedIndices]
        exact (List.pairwise_lt_range _).filter _
      refine hpw.map _ ?_
      intro a b hab
      simpa using Int.ofNat_lt.mpr hab
  · intro i
    rw [changedIndices, List.mem_filter, List.mem_range]
    constructor
    · rintro ⟨h1, h2⟩
      refine ⟨h1, ?_⟩
      intro heq
      rw [if_pos heq] at h2
      exact Bool.false_ne_true h2
    · rintro ⟨h1, h2⟩
      exact ⟨h1, by rw [if_neg h2]⟩
  · intro hch hfac
    rw [factorId, factorId, ← hch]
    by_cases hc : (changedIndices ds q1).isEmpty
    · rw [if_pos hc, if_pos hc]
    · rw [if_neg hc, if_neg hc]
      apply List.map_congr_left
      intro i hi
      rw [hfac i hi]

/-- Witness for C4's amended theorem: two perturbations of a two-parameter
vector whose multipliers `0.03` and `0.031` quantize identically at
precision 2 get character-identical factor ids, and the unperturbed vector
gets the reserved id. -/
theorem factorId_spec_witness :
    factorId ⟨[0, 0], [1, 1], 1, 2⟩ [0, 0] = [(-1, 0)]
    ∧ factorId ⟨[0, 0], [1, 1], 1, 2⟩ [3/100, 0] =
        factorId ⟨[0, 0], [1, 1], 1, 2⟩ [31/1000, 0] := by
  constructor
  · exact (factorId_spec ⟨[0, 0], [1, 1], 1, 2⟩ [] []).1
  · refine (factorId_spec ⟨[0, 0], [1, 1], 1, 2⟩ [3/100, 0] [31/1000, 0]).2.2.2 ?_ ?_
    · norm_num [changedIndices, List.range_succ, List.filter]
    · intro i hi
      have : i = 0 := by
        revert hi
        norm_num [changedIndices, List.range_succ, List.filter]
      rw [this]
      norm_num [hFactorAt, quantizeFactor, roundHalfToEven, Int.fract]

/-- C8 counterexample: with an empty run chain, `f_all` with an empty tracer
tuple still submits a (spinup) job, because `_f` resolves `self.run_dir`
before `_trajectory_with_load_function` short-circuits: the result is the
empty mapping but one job was handed to the batch system. -/
theorem f_all_zero_tracers_submits_spinup_job :
    (f_all ⟨1000, false, "exact"⟩ (fun _ => ⟨10, 0⟩) ⟨10, 0, "or", "exact"⟩
      [] (fun _ => []) ⟨[], [], []⟩ []).map (fun r => (r.1.jobs.length, r.2)) =
      .ok (1, []) := by
  norm_num [f_all, check_tracers, matching_run_dir, matching_run_dir_step,
    is_run_matching_options, is_matching_core, last_run_dir, orExtend,
    trajectory_with_load_function, Except.map, Bind.bind, Except.bind]

/-- C8 (amended): a zero-tracer value request returns the empty mapping and
submits no trajectory job — the jobs submitted are exactly those of the
spinup-run resolution, and none when a matching run already exists; and
`_df` with zero requested tracers short-circuits to the empty mapping before
any spinup resolution, stencil evaluation or job submission, leaving the
database state untouched. -/
theorem zero_tracers_short_circuit (cfg : Config) (oracle : Nat → Run)
    (spinupOpts : SpinupOptions) (modelTracers : List String) (load : String → List ℚ)
    (pdY : ℚ) (probes : Nat → Probe) (fdEval : String → List ℚ) (stencilSize : Nat)
    (db : DB) :
    f_all cfg oracle spinupOpts modelTracers load db [] =
      (matching_run_dir cfg oracle 1 spinupOpts db).map (fun r => (r.1, []))
    ∧ df cfg oracle spinupOpts modelTracers pdY probes fdEval stencilSize db [] =
      .ok (db, []) := by
  constructor
  · have hct : check_tracers modelTracers [] = .ok [] := rfl
    cases hr : matching_run_dir cfg oracle 1 spinupOpts db with
    | error e =>
      simp [f_all, hct, hr, Bind.bind, Except.bind, Except.map]
    | ok v =>
      simp [f_all, hct, hr, Bind.bind, Except.bind, Except.map,
        trajectory_with_load_function]
  · simp [df, check_tracers, Bind.bind, Except.bind]

/-- Helper: a key absent from an association list looks up to `none`. -/
theorem lookup_eq_none_of_key_not_mem {β : Type} (l : List (String × β)) (a : String)
    (h : a ∉ l.map Prod.fst) : l.lookup a = none := by
  induction l with
  | nil => rfl
  | cons p tail ih =>
    obtain ⟨k, b⟩ := p
    rw [List.map_cons, List.mem_cons, not_or] at h
    obtain ⟨h1, h2⟩ := h
    rw [List.lookup, beq_eq_false_iff_ne.mpr h1]
    exact ih h2

/-- Helper: `splitDataSets` ignores a split-dictionary entry whose tracer
does not occur in the merged dictionary. -/
theorem splitDataSets_cons_irrelevant (md : List (String × List ℚ))
    (sd : List (String × List (String × Nat × Nat))) (t : String)
    (s : List (String × Nat × Nat)) (h : t ∉ md.map Prod.fst) :
    splitDataSets md ((t, s) :: sd) = splitDataSets md sd := by
  rw [splitDataSets, splitDataSets]
  apply List.map_congr_left
  intro x hx
  have hne : x.1 ≠ t := by
    intro he
    exact h (he ▸ List.mem_map_of_mem Prod.fst hx)
  have hlk : List.lookup x.1 ((t, s) :: sd) = List.lookup x.1 sd := by
    rw [List.lookup, beq_eq_false_iff_ne.mpr hne]
  rw [hlk]

/-- Helper: a successful merge preserves the tracer names of the input in
order, and every tracer recorded in the split dictionary comes from the
input. -/
theorem mergeDataSets_keys : ∀ (m : List (String × TracerValue))
    (md : List (String × List ℚ)) (sd : List (String × List (String × Nat × Nat))),
    mergeDataSets m = .ok (md, sd) →
    md.map Prod.fst = m.map Prod.fst
      ∧ ∀ t ∈ sd.map Prod.fst, t ∈ m.map Prod.fst := by
  intro m
  induction m with
  | nil =>
    intro md sd h
    rw [mergeDataSets, Except.ok.injEq, Prod.mk.injEq] at h
    obtain ⟨h1, h2⟩ := h
    rw [← h1, ← h2]
    exact ⟨rfl, by intro t ht; simp at ht⟩
  | cons p rest ih =>
    obtain ⟨t, v⟩ := p
    intro md sd h
    cases v with
    | plain a =>
      rw [mergeDataSets] at h
      cases hr : mergeDataSets rest with
      | error e =>
        rw [hr] at h
        exact absurd h (by simp [Bind.bind, Except.bind])
      | ok r =>
        rw [hr] at h
        simp only [Bind.bind, Except.bind] at h
        rw [Except.ok.injEq, Prod.mk.injEq] at h
        obtain ⟨h1, h2⟩ := h
        obtain ⟨hk, hsub⟩ := ih r.1 r.2 (by rw [hr])
        constructor
        · rw [← h1, List.map_cons, List.map_cons, hk]
        · intro x hx
          rw [← h2] at hx
          rw [List.map_cons, List.mem_cons]
          exact Or.inr (hsub x hx)
    | datasets sets =>
      rw [mergeDataSets] at h
      by_cases hse : sets.isEmpty
      · rw [if_pos hse] at h
        exact absurd h (by simp)
      · rw [if_neg hse] at h
        cases hr : mergeDataSets rest with
        | error e =>
          rw [hr] at h
          exact absurd h (by simp [Bind.bind, Except.bind])
        | ok r =>
          rw [hr] at h
          simp only [Bind.bind, Except.bind] at h
          rw [Except.ok.injEq, Prod.mk.injEq] at h
          obtain ⟨h1, h2⟩ := h
          obtain ⟨hk, hsub⟩ := ih r.1 r.2 (by rw [hr])
          constructor
          · rw [← h1, List.map_cons, List.map_cons, hk]
          · intro x hx
            rw [← h2, List.map_cons, List.mem_cons] at hx
            rw [List.map_cons, List.mem_cons]
            rcases hx with hx | hx
            · exact Or.inl hx
            · exact Or.inr (hsub x hx)

/-- Helper: applying the slices recorded from offset `pre.length` to the
array `pre ++ concatSets sets` recovers every named data set exactly. -/
theorem buildSlices_extract : ∀ (sets : List (String × List ℚ)) (pre : List ℚ),
    (buildSlices sets pre.length).map
      (fun s => (s.1, applySlice (pre ++ concatSets sets) s.2)) = sets := by
  intro sets
  induction sets with
  | nil => intro pre; rfl
  | cons p rest ih =>
    intro pre
    obtain ⟨n, a⟩ := p
    have hconcat : concatSets ((n, a) :: rest) = a ++ concatSets rest := rfl
    rw [buildSlices, List.map_cons]
    congr 1
    · show (n, applySlice (pre ++ concatSets ((n, a) :: rest))
        (pre.length, pre.length + a.length)) = (n, a)
      rw [hconcat]
      simp only [applySlice]
      rw [Nat.add_sub_cancel_left, List.drop_left, List.take_left]
    · have hlen : pre.length + a.length = (pre ++ a).length :=
        (List.length_append pre a).symm
      simp only [hconcat, ← List.append_assoc]
      rw [hlen]
      exact ih (pre ++ a)

/-- C6 counterexample: a tracer entry holding an empty data-set mapping
makes `_merge_data_sets` raise (`np.concatenate` of an empty list), so the
round trip does not hold for every mapping of named-array mappings. -/
theorem mergeDataSets_empty_datasets_error :
    mergeDataSets [("a", TracerValue.datasets [])] = .error () := by
  simp [mergeDataSets]

/-- C6 (amended): for every tracer mapping with distinct tracer names whose
merge succeeds (equivalently, whose named-subset mappings are all
nonempty), splitting the merged arrays with the recorded split slices
reproduces the original mapping exactly — same names, same order, same
values — and plain-array tracers pass through both operations unchanged. -/
theorem splitDataSets_mergeDataSets_roundtrip : ∀ (m : List (String × TracerValue))
    (md : List (String × List ℚ)) (sd : List (String × List (String × Nat × Nat))),
    (m.map Prod.fst).Nodup → mergeDataSets m = .ok (md, sd) →
    splitDataSets md sd = m := by
  intro m
  induction m with
  | nil =>
    intro md sd _ h
    rw [mergeDataSets, Except.ok.injEq, Prod.mk.injEq] at h
    obtain ⟨h1, h2⟩ := h
    rw [← h1, ← h2]
    rfl
  | cons p rest ih =>
    obtain ⟨t, v⟩ := p
    intro md sd hnd h
    rw [List.map_cons, List.nodup_cons] at hnd
    obtain ⟨htnotin, hndrest⟩ := hnd
    cases v with
    | plain a =>
      rw [mergeDataSets] at h
      cases hr : mergeDataSets rest with
      | error e =>
        rw [hr] at h
        exact absurd h (by simp [Bind.bind, Except.bind])
      | ok r =>
        rw [hr] at h
        simp only [Bind.bind, Except.bind] at h
        rw [Except.ok.injEq, Prod.mk.injEq] at h
        obtain ⟨h1, h2⟩ := h
        obtain ⟨hk, hsub⟩ := mergeDataSets_keys rest r.1 r.2 (by rw [hr])
        rw [← h1, ← h2]
        rw [splitDataSets, List.map_cons]
        have hnone : List.lookup t r.2 = none :=
          lookup_eq_none_of_key_not_mem r.2 t (fun hmem => htnotin (hsub t hmem))
        congr 1
        · simp only [hnone]
        · show splitDataSets r.1 r.2 = rest
          exact ih r.1 r.2 hndrest (by rw [hr])
    | datasets sets =>
      rw [mergeDataSets] at h
      by_cases hse : sets.isEmpty
      · rw [if_pos hse] at h
        exact absurd h (by simp)
      · rw [if_neg hse] at h
        cases hr : mergeDataSets rest with
        | error e =>
          rw [hr] at h
          exact absurd h (by simp [Bind.bind, Except.bind])
        | ok r =>
          rw [hr] at h
          simp only [Bind.bind, Except.bind] at h
          rw [Except.ok.injEq, Prod.mk.injEq] at h
          obtain ⟨h1, h2⟩ := h
          obtain ⟨hk, _⟩ := mergeDataSets_keys rest r.1 r.2 (by rw [hr])
          rw [← h1, ← h2]
          rw [splitDataSets, List.map_cons]
          congr 1
          · have hlk : List.lookup t ((t, buildSlices sets 0) :: r.2) =
                some (buildSlices sets 0) := by
              rw [List.lookup, beq_self_eq_true]
            simp only [hlk]
            have hbs := buildSlices_extract sets []
            simp only [List.length_nil, List.nil_append] at hbs
            rw [hbs]
          · show splitDataSets r.1 ((t, buildSlices sets 0) :: r.2) = rest
            have htr1 : t ∉ r.1.map Prod.fst := by
              rw [hk]
              exact htnotin
            rw [splitDataSets_cons_irrelevant r.1 r.2 t (buildSlices sets 0) htr1]
            exact ih r.1 r.2 hndrest (by rw [hr])

/-- Witness for C6's amended theorem: a concrete mapping with one plain
tracer and one two-data-set tracer merges and splits back exactly. -/
theorem splitDataSets_mergeDataSets_roundtrip_witness :
    mergeDataSets [("a", .plain [1, 2]), ("b", .datasets [("x", [3]), ("y", [4, 5])])] =
      .ok ([("a", [1, 2]), ("b", [3, 4, 5])], [("b", [("x", 0, 1), ("y", 1, 3)])])
    ∧ splitDataSets [("a", [1, 2]), ("b", [3, 4, 5])] [("b", [("x", 0, 1), ("y", 1, 3)])] =
      [("a", .plain [1, 2]), ("b", .datasets [("x", [3]), ("y", [4, 5])])] := by
  have hok : mergeDataSets
      [("a", .plain [1, 2]), ("b", .datasets [("x", [3]), ("y", [4, 5])])] =
      .ok ([("a", [1, 2]), ("b", [3, 4, 5])], [("b", [("x", 0, 1), ("y", 1, 3)])]) := by
    norm_num [mergeDataSets, concatSets, buildSlices, Bind.bind, Except.bind]
  exact ⟨hok, splitDataSets_mergeDataSets_roundtrip
    [("a", .plain [1, 2]), ("b", .datasets [("x", [3]), ("y", [4, 5])])]
    [("a", [1, 2]), ("b", [3, 4, 5])] [("b", [("x", 0, 1), ("y", 1, 3)])]
    (by simp) hok⟩

end SimulationModel
